import Mathlib

/-!
Verification of the attach-gateway request pipeline against its specification.

The Lean definitions below are a shallow embedding of the Python sources:

* `middleware/quota.py` — sliding-window meter stores (in-memory deque and
  Redis sorted-set variants), the `TokenQuotaMiddleware` ingress phase and the
  `stream_with_quota` egress loop;
* `auth/oidc.py` — direct JWT verification, JWKS kid resolution with one forced
  refresh, and `verify_jwt_with_exchange` gating of the token-exchange path;
* `middleware/auth.py` — the bearer-extracting auth middleware;
* `attach/cache.py` — the cache fingerprint `cache_key`;
* `proxy/engine.py` — the `/api/chat` dispatcher.

Machine-level details that the claims do not touch are modelled at the natural
granularity: timestamps (`time.time()`) are integers, the token encoder is an
explicit function parameter, the SHA-256 hex digest is an explicit function
parameter (every property proved or refuted here already holds or fails at the
level of the hashed input string), and Python exceptions are pairs of a flag
recording whether the exception is a `ValueError` together with the message
string, which is exactly the data `verify_jwt_with_exchange` dispatches on.
-/

/-- Helper modelling `list` prefix testing on characters. -/
def charListIsPrefixOf : List Char → List Char → Bool
  | [], _ => true
  | _ :: _, [] => false
  | a :: as, b :: bs => a == b && charListIsPrefixOf as bs

/-- Helper: does `pat` occur as a contiguous sublist of the first argument? -/
def charListContains : List Char → List Char → Bool
  | [], pat => charListIsPrefixOf pat []
  | a :: rest, pat => charListIsPrefixOf pat (a :: rest) || charListContains rest pat

/-- Model of Python `s.startswith(p)`. -/
def strStartsWith (s p : String) : Bool := charListIsPrefixOf p.data s.data

/-- Model of Python `p in s` (substring containment). -/
def strContains (s p : String) : Bool := charListContains s.data p.data

/-!
## Sliding-window meter store (`middleware/quota.py` lines 26-84)
-/

/-- One `(timestamp, tokens)` sample of a per-user meter window. -/
structure Sample where
  ts : Int
  tokens : Nat
deriving DecidableEq, Repr

/-- Result of `increment`: the retained window plus the returned pair
`(total_in_window, oldest_timestamp_in_window)`. -/
structure IncRes where
  dq : List Sample
  total : Nat
  oldest : Int
deriving DecidableEq, Repr

/-- Model of the loop `while dq and dq[0][0] < cutoff: dq.popleft()`:
drop samples from the front while their timestamp is strictly below
the cutoff. -/
def trimOld (cutoff : Int) : List Sample → List Sample
  | [] => []
  | s :: rest => if s.ts < cutoff then trimOld cutoff rest else s :: rest

/-- Embedding of `InMemoryMeterStore.increment` (quota.py lines 44-53):
append `(now, tokens)`, pop stale samples from the left, sum the remainder,
and report the head timestamp (or `now` when the deque is empty). -/
def InMemoryMeterStore.increment (window : Nat) (dq : List Sample)
    (now : Int) (tokens : Nat) : IncRes :=
  let dq2 := dq ++ [⟨now, tokens⟩]
  let trimmed := trimOld (now - window) dq2
  { dq := trimmed
    total := (trimmed.map Sample.tokens).sum
    oldest := match trimmed with | [] => now | s :: _ => s.ts }

/-- Model of `ZADD`: insert a member into the sorted set ordered by score. -/
def zinsert (e : Sample) : List Sample → List Sample
  | [] => [e]
  | s :: rest => if e.ts < s.ts then e :: s :: rest else s :: zinsert e rest

/-- Embedding of `RedisMeterStore.increment` (quota.py lines 65-84):
`ZADD key {member: now}; ZREMRANGEBYSCORE key 0 (now - window); ZRANGE`,
then sum the surviving token counts and fold a minimum (seeded with `now`)
over the surviving scores.  `ZREMRANGEBYSCORE` removes scores in the
closed interval `[0, now - window]`. -/
def RedisMeterStore.increment (window : Nat) (entries : List Sample)
    (now : Int) (tokens : Nat) : IncRes :=
  let entries2 := zinsert ⟨now, tokens⟩ entries
  let kept := entries2.filter (fun s => !decide (0 ≤ s.ts ∧ s.ts ≤ now - window))
  { dq := kept
    total := (kept.map Sample.tokens).sum
    oldest := kept.foldl (fun acc s => min acc s.ts) now }

/-- Modelled from the spec words of claim C3 (spec section 4.5), for
comparison with the code: the call first appends `(now, tokens)`, then drops
exactly the entries with `ts < now - W`, then sums; `oldest` is the minimum
retained timestamp, or `now` if the window is empty. -/
def MeterSpec.increment (window : Nat) (dq : List Sample)
    (now : Int) (tokens : Nat) : IncRes :=
  let dq2 := dq ++ [⟨now, tokens⟩]
  let kept := dq2.filter (fun s => decide (now - window ≤ s.ts))
  { dq := kept
    total := (kept.map Sample.tokens).sum
    oldest := match (kept.map Sample.ts).min? with | none => now | some m => m }

/-!
## Quota middleware ingress phase (`middleware/quota.py` lines 117-168)
-/

/-- Model of `TokenQuotaMiddleware._is_textual`. -/
def isTextual (mime : String) : Bool :=
  strStartsWith mime "text/" || strContains mime "json"

/-- Embedding of `TokenQuotaMiddleware._is_monitoring_endpoint`
(quota.py lines 124-132): a path is skipped when it starts with one of the
three listed path strings. -/
def isMonitoringEndpoint (path : String) : Bool :=
  ["/metrics", "/mem/events", "/auth/config"].any (fun p => strStartsWith path p)

/-- Usage draft built by the quota middleware (quota.py lines 144-151). -/
structure UsageDraft where
  user : String
  project : String
  tokens_in : Nat
  tokens_out : Nat
  model : String
  request_id : String
  ts : Option Int
deriving DecidableEq, Repr

/-- Request data consumed by the quota middleware.  The `sub` field records
`request.state.sub` placed there by the auth middleware; the quota code never
reads it, which is the subject of claim C9. -/
structure IngressReq where
  path : String
  xAttachUser : Option String
  xAttachProject : Option String
  xRequestId : Option String
  contentType : String
  body : String
  clientHost : Option String
  sub : Option String
deriving DecidableEq, Repr

/-- User attribution (quota.py lines 141-143): the `X-Attach-User` header when
present and non-empty (Python truthiness), else the client address, else
`"unknown"`. -/
def quotaUser (req : IngressReq) : String :=
  match req.xAttachUser with
  | some u => if u = "" then req.clientHost.getD "unknown" else u
  | none => req.clientHost.getD "unknown"

/-- Token count of the request body (quota.py lines 154-157): count only
textual content types, with the encoder `numTokens` passed explicitly. -/
def reqTokens (numTokens : String → Nat) (req : IngressReq) : Nat :=
  if isTextual req.contentType then numTokens req.body else 0

/-- The usage draft as first materialised (quota.py lines 144-158).
`freshId` stands for the generated `uuid4` string. -/
def initialDraft (numTokens : String → Nat) (freshId : String)
    (req : IngressReq) : UsageDraft :=
  { user := quotaUser req
    project := req.xAttachProject.getD "default"
    tokens_in := reqTokens numTokens req
    tokens_out := 0
    model := "unknown"
    request_id :=
      match req.xRequestId with
      | some r => if r = "" then freshId else r
      | none => freshId
    ts := none }

/-- Per-user meter state: the dictionary `user -> deque` of the in-memory
store (the default store of `TokenQuotaMiddleware.__init__`). -/
def MeterMap : Type := String → List Sample

/-- Configuration of the middleware: `self.window` and `self.max_tokens`. -/
structure QuotaConfig where
  window : Nat
  maxTokens : Nat
deriving DecidableEq, Repr

/-- Possible outcomes of the ingress phase. -/
inductive IngressOutcome where
  | passthrough
  | reject (detail : String) (retryAfter : Int) (status : Nat)
  | proceed (draft : UsageDraft)
deriving DecidableEq, Repr

/-- Result of the ingress phase: outcome, updated meter state, and the usage
events emitted to the usage sink during this phase. -/
structure IngressRes where
  outcome : IngressOutcome
  store : MeterMap
  emitted : List UsageDraft

/-- Embedding of the ingress half of `TokenQuotaMiddleware.dispatch`
(quota.py lines 134-168).  `now` is the `time.time()` value used by
`store.increment`; `tRej` is the (later) `time.time()` value read when a
rejection is produced. -/
def TokenQuotaMiddleware.dispatchIngress (cfg : QuotaConfig)
    (numTokens : String → Nat) (freshId : String) (req : IngressReq)
    (st : MeterMap) (now tRej : Int) : IngressRes :=
  if isMonitoringEndpoint req.path then ⟨.passthrough, st, []⟩
  else
    let user := quotaUser req
    let draft := initialDraft numTokens freshId req
    let tokens := reqTokens numTokens req
    let inc := InMemoryMeterStore.increment cfg.window (st user) now tokens
    let st2 : MeterMap := fun u => if u = user then inc.dq else st u
    if inc.total > cfg.maxTokens then
      ⟨.reject "token quota exceeded" (max 0 ((cfg.window : Int) - (tRej - inc.oldest))) 429,
        st2, [{ draft with ts := some tRej }]⟩
    else ⟨.proceed draft, st2, []⟩

/-!
## Quota middleware egress loop (`middleware/quota.py` lines 194-219)
-/

/-- Result of the `async for chunk in response.body_iterator` loop inside
`stream_with_quota`.  `consumed` lists the chunks actually pulled from the
iterator, `remaining` the ones never pulled (after a `break`), `yielded` the
chunk texts forwarded to the client, `counted` the sum of every token count
that reached `store.increment`, and `stopped` whether the loop exited through
the over-limit `break`. -/
structure LoopRes where
  yielded : List String
  dq : List Sample
  tokensOut : Nat
  counted : Nat
  stopped : Bool
  consumed : List (Int × String)
  remaining : List (Int × String)
deriving DecidableEq, Repr

/-- Token count of one response chunk (quota.py lines 199-202): textual
chunks are encoded, binary chunks count zero. -/
def chunkTokens (numTokens : String → Nat) (textual : Bool) (c : String) : Nat :=
  if textual then numTokens c else 0

/-- Embedding of the chunk loop of `stream_with_quota` (quota.py lines
198-209).  Each chunk carries the `time.time()` value of its
`store.increment` call.  On `next_total > max_tokens` the loop breaks:
the chunk is not yielded, its tokens are not added to `tokens_out`, and no
further chunk is read from the iterator. -/
def streamLoop (cfg : QuotaConfig) (numTokens : String → Nat) (textual : Bool) :
    List (Int × String) → List Sample → LoopRes
  | [], dq =>
    { yielded := [], dq := dq, tokensOut := 0, counted := 0, stopped := false
      consumed := [], remaining := [] }
  | (t, c) :: rest, dq =>
    let tok := chunkTokens numTokens textual c
    let inc := InMemoryMeterStore.increment cfg.window dq t tok
    if inc.total > cfg.maxTokens then
      { yielded := [], dq := inc.dq, tokensOut := 0, counted := tok, stopped := true
        consumed := [(t, c)], remaining := rest }
    else
      let r := streamLoop cfg numTokens textual rest inc.dq
      { yielded := c :: r.yielded, dq := r.dq, tokensOut := tok + r.tokensOut
        counted := tok + r.counted, stopped := r.stopped
        consumed := (t, c) :: r.consumed, remaining := r.remaining }

/-- Result of the whole generator `stream_with_quota`. -/
structure StreamRes where
  yielded : List String
  dq : List Sample
  emitted : List UsageDraft
deriving DecidableEq, Repr

/-- Embedding of `stream_with_quota` (quota.py lines 194-219): yield the
eagerly-read first chunk when present, run the chunk loop, then finalise the
draft (`ts = now`) and emit it to the usage sink exactly once.  `draft` is the
usage draft as it stands after the ingress phase and first-chunk handling;
`tEnd` is the `time.time()` value at stream end. -/
def stream_with_quota (cfg : QuotaConfig) (numTokens : String → Nat)
    (textual : Bool) (firstChunk : Option String) (chunks : List (Int × String))
    (dq : List Sample) (draft : UsageDraft) (tEnd : Int) : StreamRes :=
  let r := streamLoop cfg numTokens textual chunks dq
  { yielded := firstChunk.toList ++ r.yielded
    dq := r.dq
    emitted := [{ draft with tokens_out := draft.tokens_out + r.tokensOut, ts := some tEnd }] }

/-!
## JWT verification and token exchange (`auth/oidc.py`)
-/

/-- Model of a Python exception as dispatched on by
`verify_jwt_with_exchange`: whether the exception is a `ValueError`, plus its
message.  Exceptions raised by the `jose` library (`JWTError`,
`JWTClaimsError`, `ExpiredSignatureError`) are plain `Exception` subclasses,
not `ValueError` subclasses. -/
structure PyErr where
  isValueError : Bool
  msg : String
deriving DecidableEq, Repr

/-- A JWKS entry; only the `kid` participates in key resolution. -/
structure Jwk where
  kid : String
deriving DecidableEq, Repr

/-- Model of one bearer token as seen by `auth/oidc.py`: the unverified
header fields, the unverified `iss` claim, the outcomes of the signature and
time-window checks performed by `jose.jwt.decode`, and the decoded claim set
returned on success. -/
structure TokenModel where
  wellFormed : Bool
  alg : String
  kid : Option String
  iss : Option String
  sigOk : Bool
  iatOk : Bool
  expOk : Bool
  audOk : Bool
  claims : List (String × String)
deriving DecidableEq, Repr

/-- Embedding of `ACCEPTED_ALGS` (oidc.py line 16). -/
def ACCEPTED_ALGS : List String := ["RS256", "ES256"]

/-- Model of `next((k for k in keys if k["kid"] == kid), None)`. -/
def findKey (keys : List Jwk) (kid : String) : Option Jwk :=
  keys.find? (fun k => k.kid == kid)

/-- Embedding of the kid-resolution step of `_verify_jwt_direct`
(oidc.py lines 155-163): look up the kid in the current JWKS snapshot
`keys1`; on miss, clear the cache (one forced refresh, yielding `keys2`) and
retry; report the key found together with the number of forced refreshes. -/
def resolveSigningKey (keys1 keys2 : List Jwk) (kid : String) : Option Jwk × Nat :=
  match findKey keys1 kid with
  | some k => (some k, 0)
  | none =>
    match findKey keys2 kid with
    | some k => (some k, 1)
    | none => (none, 1)

/-- Model of `jose.jwt.decode` with `verify_aud`, `verify_exp`, `verify_iat`
(oidc.py lines 166-178): signature first, then the claim checks in the order
python-jose validates them (`iat`, `exp`, `aud`, `iss`).  Every failure is a
jose exception, hence not a `ValueError`. -/
def joseDecode (issuer : String) (tok : TokenModel) :
    Except PyErr (List (String × String)) :=
  if !tok.sigOk then .error ⟨false, "Signature verification failed."⟩
  else if !tok.iatOk then
    .error ⟨false, "Issued At claim (iat) cannot be in the future."⟩
  else if !tok.expOk then .error ⟨false, "Signature has expired."⟩
  else if !tok.audOk then .error ⟨false, "Invalid audience"⟩
  else if tok.iss ≠ some issuer then .error ⟨false, "Invalid issuer"⟩
  else .ok tok.claims

/-- Shared embedding of `_verify_jwt_direct` (oidc.py lines 127-178) and
`_verify_jwt_against` (lines 180-202), which perform the same steps against a
given issuer/audience and JWKS pair.  A malformed token makes
`jwt.get_unverified_header` raise a jose `JWTError`; the alg and kid checks
raise `ValueError` with the exact source messages; `if not kid` also treats
an empty kid as missing. -/
def verifyJwtCore (issuer : String) (keys1 keys2 : List Jwk) (tok : TokenModel) :
    Except PyErr (List (String × String)) :=
  if !tok.wellFormed then .error ⟨false, "Error decoding token headers."⟩
  else if !ACCEPTED_ALGS.contains tok.alg then
    .error ⟨true, "alg \u0027" ++ tok.alg ++ "\u0027 not allowed"⟩
  else if tok.kid.getD "" = "" then
    .error ⟨true, "JWT header missing \u0027kid\u0027"⟩
  else
    match (resolveSigningKey keys1 keys2 (tok.kid.getD "")).1 with
    | none => .error ⟨true, "signing key not found in issuer JWKS"⟩
    | some _ => joseDecode issuer tok

/-- Embedding of `_verify_jwt_direct` against the configured issuer. -/
def verifyJwtDirect (issuer : String) (keys1 keys2 : List Jwk)
    (tok : TokenModel) : Except PyErr (List (String × String)) :=
  verifyJwtCore issuer keys1 keys2 tok

/-- The phrase list of `verify_jwt_with_exchange` (oidc.py lines 224-230):
a direct-verification `ValueError` whose message contains one of these
phrases is re-raised without attempting the exchange. -/
def PERMANENT_PHRASES : List String :=
  ["not allowed", "missing \u0027kid\u0027", "invalid token", "malformed", "expired"]

/-- External collaborators of the exchange path: the outcome of the
`_exchange_jwt_descope` POST (a verified-provider token on success) and the
provider-side issuer, audience and JWKS used by `_verify_jwt_against`. -/
structure ExchangeWorld where
  exchangeResult : Except PyErr TokenModel
  descopeIssuer : String
  descopeKeys1 : List Jwk
  descopeKeys2 : List Jwk
deriving Repr

/-- Result of `verify_jwt_with_exchange` plus whether the token-exchange
endpoint was actually called. -/
structure XRes where
  result : Except PyErr (List (String × String))
  exchangeAttempted : Bool
deriving Repr

/-- Embedding of `verify_jwt_with_exchange` (oidc.py lines 204-247).
Only a `ValueError` from direct verification whose message contains none of
the permanent phrases reaches the exchange branch; any other exception is
re-raised unchanged.  Inside the branch, a missing (or empty) unverified
`iss` claim aborts before the exchange call; otherwise the exchange is
attempted and its token verified against the provider issuer; any inner
failure is wrapped into the combined `ValueError`. -/
def verifyJwtWithExchange (issuer : String) (keys1 keys2 : List Jwk)
    (w : ExchangeWorld) (tok : TokenModel) : XRes :=
  match verifyJwtDirect issuer keys1 keys2 tok with
  | .ok c => ⟨.ok c, false⟩
  | .error e =>
    if e.isValueError then
      if PERMANENT_PHRASES.any (fun p => strContains e.msg p) then ⟨.error e, false⟩
      else
        match tok.iss with
        | none =>
          ⟨.error ⟨true, "JWT verification failed; direct=" ++ e.msg ++
            "; exchange=Cannot extract issuer from token for exchange"⟩, false⟩
        | some extIss =>
          if extIss = "" then
            ⟨.error ⟨true, "JWT verification failed; direct=" ++ e.msg ++
              "; exchange=Cannot extract issuer from token for exchange"⟩, false⟩
          else
            match w.exchangeResult with
            | .error ex =>
              ⟨.error ⟨true, "JWT verification failed; direct=" ++ e.msg ++
                "; exchange=" ++ ex.msg⟩, true⟩
            | .ok dtok =>
              match verifyJwtCore w.descopeIssuer w.descopeKeys1 w.descopeKeys2 dtok with
              | .ok c => ⟨.ok c, true⟩
              | .error ex =>
                ⟨.error ⟨true, "JWT verification failed; direct=" ++ e.msg ++
                  "; exchange=" ++ ex.msg⟩, true⟩
    else ⟨.error e, false⟩

/-!
## Auth middleware (`middleware/auth.py`)
-/

/-- Embedding of `EXCLUDED_PATHS` (auth.py lines 19-24); membership is exact
path equality, not a prefix test. -/
def EXCLUDED_PATHS : List String := ["/auth/config", "/docs", "/redoc", "/openapi.json"]

/-- Request data consumed by `jwt_auth_mw`. -/
structure AuthReq where
  method : String
  path : String
  authorization : Option String
deriving DecidableEq, Repr

/-- Outcome of the auth middleware.  `forwarded sub` means `call_next` ran
with `request.state.sub = sub` (`none` on the bypass branches, which never
set it); `response` is a JSON response written by the middleware;
`uncaughtKeyError` models a Python `KeyError` escaping the handler (the
caller sees an internal server error, not a middleware response). -/
inductive AuthOutcome where
  | forwarded (sub : Option String)
  | response (status : Nat) (detail : String)
  | uncaughtKeyError (key : String)
deriving DecidableEq, Repr

/-- Model of `claims["sub"]` lookup: `find?` over the decoded claim list. -/
def lookupClaim (claims : List (String × String)) (k : String) : Option String :=
  (claims.find? (fun p => p.1 == k)).map (fun p => p.2)

/-- Embedding of `jwt_auth_mw` (auth.py lines 27-60).  The verifier (either
`verify_jwt` or `verify_jwt_with_exchange`, selected by environment) is the
function parameter `verify`.  The `try` block covers only the `verify` call
(lines 49-56); the `claims["sub"]` subscript on line 59 runs after the
`except`, so a missing key raises an uncaught `KeyError`. -/
def jwt_auth_mw (verify : String → Except PyErr (List (String × String)))
    (req : AuthReq) : AuthOutcome :=
  if req.method = "OPTIONS" then .forwarded none
  else if EXCLUDED_PATHS.contains req.path then .forwarded none
  else
    let authHeader := req.authorization.getD ""
    if !strStartsWith authHeader "Bearer " then .response 401 "Missing Bearer token"
    else
      let token := authHeader.drop 7
      match verify token with
      | .error e => .response 401 e.msg
      | .ok claims =>
        match lookupClaim claims "sub" with
        | some s => .forwarded (some s)
        | none => .uncaughtKeyError "sub"

/-!
## Cache fingerprint (`attach/cache.py` lines 54-58)
-/

/-- JSON scalar values appearing in the `params` mapping.  The embedding
covers flat parameter maps (string keys, scalar values), the domain on which
`json.dumps(params, sort_keys=True)` is canonical serialisation after
sorting the keys. -/
inductive JScalar where
  | null
  | bool (b : Bool)
  | num (n : Int)
  | str (s : String)
deriving DecidableEq, Repr

/-- Serialisation of one scalar, matching `json.dumps` output. -/
def dumpsScalar : JScalar → String
  | .null => "null"
  | .bool true => "true"
  | .bool false => "false"
  | .num n => toString n
  | .str s => "\"" ++ s ++ "\""

/-- Key ordering used by `sort_keys=True`. -/
def keyLE (a b : String × JScalar) : Prop := a.1 ≤ b.1

instance : DecidableRel keyLE := fun a b => inferInstanceAs (Decidable (a.1 ≤ b.1))

instance : IsTotal (String × JScalar) keyLE := ⟨fun a b => le_total a.1 b.1⟩

instance : IsTrans (String × JScalar) keyLE := ⟨fun _ _ _ hab hbc => le_trans hab hbc⟩

/-- Model of `sort_keys=True`: sort the parameter entries by key. -/
def sortParams (l : List (String × JScalar)) : List (String × JScalar) :=
  l.insertionSort keyLE

/-- Serialisation of the sorted entry list with the default `json.dumps`
separators (comma-space, colon-space). -/
def dumpsEntries : List (String × JScalar) → String
  | [] => ""
  | [(k, v)] => "\"" ++ k ++ "\": " ++ dumpsScalar v
  | (k, v) :: rest => "\"" ++ k ++ "\": " ++ dumpsScalar v ++ ", " ++ dumpsEntries rest

/-- Model of `json.dumps(params, sort_keys=True)`. -/
def dumpsParams (l : List (String × JScalar)) : String :=
  "\x7b" ++ dumpsEntries (sortParams l) ++ "\x7d"

/-- Embedding of the string hashed by `cache_key` (cache.py line 57):
`model + messages + json.dumps(params, sort_keys=True)`, a plain
concatenation without separators. -/
def cacheBlob (model messages : String) (params : List (String × JScalar)) : String :=
  model ++ messages ++ dumpsParams params

/-- Embedding of `cache_key` (cache.py lines 54-58).  The SHA-256 hex digest
is the explicit function parameter `h`; every key property proved below holds
for an arbitrary digest function, and the exhibited collision happens already
at the level of `cacheBlob`, the exact string the source hashes. -/
def cache_key (h : String → String) (model messages : String)
    (params : List (String × JScalar)) : String :=
  h (cacheBlob model messages params)

/-!
## Proxy dispatcher (`proxy/engine.py` lines 43-105)
-/

/-- Parsed `/api/chat` request body as consumed by `proxy_to_engine`:
`model` is `body.get("model", "")`, `messagesSer` is
`json.dumps(body.get("messages", []))`, `params` is `body.get("params", {})`,
and `streamFlag` is `body.get("stream", True)`. -/
structure ChatBody where
  model : String
  messagesSer : String
  params : List (String × JScalar)
  streamFlag : Bool
deriving Repr

/-- Configuration read from `request.app.state.config`. -/
structure AppConfig where
  queue_backend : String
deriving DecidableEq, Repr

/-- Response produced by `proxy_to_engine`. -/
inductive ProxyOutcome where
  | badRequest
  | cachedHit (v : JScalar)
  | queued (jobId : String)
  | nonStreamResult (v : JScalar)
  | streamed
deriving DecidableEq, Repr

/-- Result of the dispatcher together with its observable effects: upstream
engine calls made, jobs enqueued, and cache writes performed. -/
structure ProxyRes where
  outcome : ProxyOutcome
  upstreamCalls : Nat
  enqueued : List String
  cacheSets : List (String × JScalar)
deriving Repr

/-- Embedding of `proxy_to_engine` (engine.py lines 43-105).  `parsed` is the
outcome of `request.json()` (`none` models a parse failure, answered 400);
`cacheGet` is the `cache.get` capability; `freshJobId` the id minted by
`new_job`; `upstreamResp` the JSON the engine would return for this payload.
The cache is consulted before the queue-backend check, so a hit returns
verbatim no matter which queue backend is configured. -/
def proxy_to_engine (h : String → String) (cacheGet : String → Option JScalar)
    (cfg : AppConfig) (freshJobId : String) (upstreamResp : JScalar)
    (parsed : Option ChatBody) : ProxyRes :=
  match parsed with
  | none => ⟨.badRequest, 0, [], []⟩
  | some body =>
    let ckey := cache_key h body.model body.messagesSer body.params
    match cacheGet ckey with
    | some hit => ⟨.cachedHit hit, 0, [], []⟩
    | none =>
      if cfg.queue_backend ≠ "memory" then ⟨.queued freshJobId, 0, [freshJobId], []⟩
      else if !body.streamFlag then ⟨.nonStreamResult upstreamResp, 1, [], [(ckey, upstreamResp)]⟩
      else ⟨.streamed, 1, [], []⟩

/-!
## Helper lemmas about the meter stores
-/

/-- Samples surviving the front-trim all come from the original deque. -/
theorem mem_of_mem_trimOld {c : Int} :
    ∀ {l : List Sample} {s : Sample}, s ∈ trimOld c l → s ∈ l := by
  intro l
  induction l with
  | nil => intro s hs; simp [trimOld] at hs
  | cons a rest ih =>
    intro s hs
    by_cases hc : a.ts < c
    · simp only [trimOld, if_pos hc] at hs
      exact List.mem_cons_of_mem a (ih hs)
    · simpa [trimOld, hc] using hs

/-- On a deque sorted by timestamp, the front-trim leaves only samples at or
after the cutoff. -/
theorem trimOld_ge {c : Int} :
    ∀ {l : List Sample}, l.Pairwise (fun a b => a.ts ≤ b.ts) →
      ∀ s ∈ trimOld c l, c ≤ s.ts := by
  intro l
  induction l with
  | nil => intro _ s hs; simp [trimOld] at hs
  | cons a rest ih =>
    intro hp s hs
    rw [List.pairwise_cons] at hp
    by_cases hc : a.ts < c
    · simp only [trimOld, if_pos hc] at hs
      exact ih hp.2 s hs
    · simp only [trimOld, if_neg hc] at hs
      rcases List.mem_cons.mp hs with rfl | hmem
      · exact not_lt.mp hc
      · exact (not_lt.mp hc).trans (hp.1 s hmem)

/-- Front-trimming preserves any pairwise relation. -/
theorem trimOld_pairwise {R : Sample → Sample → Prop} {c : Int} :
    ∀ {l : List Sample}, l.Pairwise R → (trimOld c l).Pairwise R := by
  intro l
  induction l with
  | nil => intro h; simp [trimOld]
  | cons a rest ih =>
    intro hp
    by_cases hc : a.ts < c
    · simp only [trimOld, if_pos hc]
      exact ih (List.pairwise_cons.mp hp).2
    · simpa [trimOld, hc] using hp

/-- A deque holding a sample at or after the cutoff does not trim to empty. -/
theorem trimOld_ne_nil {c : Int} :
    ∀ {l : List Sample}, (∃ s ∈ l, c ≤ s.ts) → trimOld c l ≠ [] := by
  intro l
  induction l with
  | nil => rintro ⟨s, hs, _⟩; simp at hs
  | cons a rest ih =>
    rintro ⟨s, hs, hcs⟩
    by_cases hc : a.ts < c
    · have hmem : s ∈ rest := by
        rcases List.mem_cons.mp hs with rfl | hmem
        · exact absurd hc (not_lt.mpr hcs)
        · exact hmem
      simp only [trimOld, if_pos hc]
      exact ih ⟨s, hmem, hcs⟩
    · simp [trimOld, hc]

/-- The reported oldest timestamp never exceeds the increment time, provided
no stored sample is from the future. -/
theorem increment_oldest_le {window : Nat} {dq : List Sample} {now : Int}
    {tokens : Nat} (h : ∀ s ∈ dq, s.ts ≤ now) :
    (InMemoryMeterStore.increment window dq now tokens).oldest ≤ now := by
  simp only [InMemoryMeterStore.increment]
  cases htr : trimOld (now - window) (dq ++ [⟨now, tokens⟩]) with
  | nil => simp
  | cons s rest =>
    simp only []
    have hmem : s ∈ trimOld (now - window) (dq ++ [⟨now, tokens⟩]) := by
      rw [htr]; exact List.mem_cons_self s rest
    have : s ∈ dq ++ [⟨now, tokens⟩] := mem_of_mem_trimOld hmem
    rcases List.mem_append.mp this with hmem2 | hmem2
    · exact h s hmem2
    · simp at hmem2; rw [hmem2]

/-- Membership in the model of `ZADD`. -/
theorem mem_zinsert {e : Sample} :
    ∀ {l : List Sample} {s : Sample}, s ∈ zinsert e l ↔ s = e ∨ s ∈ l := by
  intro l
  induction l with
  | nil => intro s; simp [zinsert]
  | cons a rest ih =>
    intro s
    by_cases hc : e.ts < a.ts
    · simp [zinsert, hc]
    · simp [zinsert, hc, ih, or_left_comm]

/-- Folding `min` over samples yields a lower bound of the seed. -/
theorem foldlMin_le_seed :
    ∀ (l : List Sample) (a : Int), l.foldl (fun acc s => min acc s.ts) a ≤ a := by
  intro l
  induction l with
  | nil => intro a; simp
  | cons x xs ih =>
    intro a
    simp only [List.foldl_cons]
    exact (ih (min a x.ts)).trans (min_le_left _ _)

/-- Folding `min` over samples yields a lower bound of every member. -/
theorem foldlMin_le_mem :
    ∀ (l : List Sample) (a : Int) (s : Sample), s ∈ l →
      l.foldl (fun acc s => min acc s.ts) a ≤ s.ts := by
  intro l
  induction l with
  | nil => intro a s hs; simp at hs
  | cons x xs ih =>
    intro a s hs
    simp only [List.foldl_cons]
    rcases List.mem_cons.mp hs with rfl | hmem
    · exact (foldlMin_le_seed xs (min a s.ts)).trans (min_le_right _ _)
    · exact ih (min a x.ts) s hmem

/-- The fold of `min` is the seed or the timestamp of some member. -/
theorem foldlMin_eq_seed_or_mem :
    ∀ (l : List Sample) (a : Int),
      l.foldl (fun acc s => min acc s.ts) a = a ∨
        ∃ s ∈ l, l.foldl (fun acc s => min acc s.ts) a = s.ts := by
  intro l
  induction l with
  | nil => intro a; left; simp
  | cons x xs ih =>
    intro a
    simp only [List.foldl_cons]
    rcases ih (min a x.ts) with heq | ⟨s, hs, heq⟩
    · rcases min_cases a x.ts with ⟨hm, _⟩ | ⟨hm, _⟩
      · left; rw [heq, hm]
      · right; exact ⟨x, List.mem_cons_self x xs, by rw [heq, hm]⟩
    · right; exact ⟨s, List.mem_cons_of_mem x hs, heq⟩

/-- C3 (corrected claim, counterexample): the shared (Redis) variant does not
implement the drop rule stated by the claim.  With one stored sample at
`ts = 0`, `now = 60`, `W = 60`, the sample sits exactly at `ts = now - W`;
the claimed procedure (drop only `ts < now - W`, embodied by
`MeterSpec.increment`) retains it and returns total `5`, while
`ZREMRANGEBYSCORE key 0 (now - W)` removes it (closed interval) and the call
returns total `0`. -/
theorem c3_counterexample :
    (RedisMeterStore.increment 60 [⟨0, 5⟩] 60 0).total = 0 ∧
    (MeterSpec.increment 60 [⟨0, 5⟩] 60 0).total = 5 ∧
    (RedisMeterStore.increment 60 [⟨0, 5⟩] 60 0).total ≠
      (MeterSpec.increment 60 [⟨0, 5⟩] 60 0).total := by
  refine ⟨rfl, rfl, ?_⟩
  decide

/-- C3 (amended): for monotone, in-window-ordered state, both `increment`
variants append `(now, tokens)`, trim, and report `total` as the sum of the
retained samples and `oldest` as the minimum retained timestamp (`now` when
nothing is retained).  The local variant drops exactly the samples with
`ts < now - W` (every retained sample satisfies `ts ≥ now - W`, and the
window is never empty after the append); the shared variant trims the closed
interval `[0, now - W]`, so its retained samples satisfy the strict bound
`ts > now - W`. -/
theorem c3_meter_increment_amended (window : Nat) (now : Int) (tokens : Nat)
    (dq entries : List Sample)
    (hsort : dq.Pairwise (fun a b => a.ts ≤ b.ts))
    (hle : ∀ s ∈ dq, s.ts ≤ now)
    (hpos : ∀ s ∈ entries, 0 ≤ s.ts ∧ s.ts ≤ now)
    (hnow : 0 ≤ now) :
    ((InMemoryMeterStore.increment window dq now tokens).dq ≠ [] ∧
      (∀ s ∈ (InMemoryMeterStore.increment window dq now tokens).dq,
        now - window ≤ s.ts) ∧
      (InMemoryMeterStore.increment window dq now tokens).total =
        (((InMemoryMeterStore.increment window dq now tokens).dq).map Sample.tokens).sum ∧
      (∀ s ∈ (InMemoryMeterStore.increment window dq now tokens).dq,
        (InMemoryMeterStore.increment window dq now tokens).oldest ≤ s.ts) ∧
      (∃ s ∈ (InMemoryMeterStore.increment window dq now tokens).dq,
        (InMemoryMeterStore.increment window dq now tokens).oldest = s.ts)) ∧
    ((∀ s ∈ (RedisMeterStore.increment window entries now tokens).dq,
        now - window < s.ts) ∧
      (RedisMeterStore.increment window entries now tokens).total =
        (((RedisMeterStore.increment window entries now tokens).dq).map Sample.tokens).sum ∧
      (∀ s ∈ (RedisMeterStore.increment window entries now tokens).dq,
        (RedisMeterStore.increment window entries now tokens).oldest ≤ s.ts) ∧
      ((RedisMeterStore.increment window entries now tokens).dq = [] →
        (RedisMeterStore.increment window entries now tokens).oldest = now) ∧
      ((RedisMeterStore.increment window entries now tokens).dq ≠ [] →
        ∃ s ∈ (RedisMeterStore.increment window entries now tokens).dq,
          (RedisMeterStore.increment window entries now tokens).oldest = s.ts)) := by
  have hcut : now - (window : Int) ≤ now := sub_le_self now (by positivity)
  have hpair2 : (dq ++ [(⟨now, tokens⟩ : Sample)]).Pairwise
      (fun a b => a.ts ≤ b.ts) := by
    rw [List.pairwise_append]
    refine ⟨hsort, List.pairwise_singleton _ _, ?_⟩
    intro a ha b hb
    simp only [List.mem_singleton] at hb
    rw [hb]
    exact hle a ha
  have hne : trimOld (now - (window : Int)) (dq ++ [⟨now, tokens⟩]) ≠ [] :=
    trimOld_ne_nil ⟨⟨now, tokens⟩, by simp, hcut⟩
  have hkeepmem : ∀ s ∈ (RedisMeterStore.increment window entries now tokens).dq,
      s ∈ zinsert ⟨now, tokens⟩ entries ∧
        ¬(0 ≤ s.ts ∧ s.ts ≤ now - (window : Int)) := by
    intro s hs
    simp only [RedisMeterStore.increment] at hs
    have h2 := List.mem_filter.mp hs
    refine ⟨h2.1, ?_⟩
    intro hand
    have h3 := h2.2
    simp at h3
    omega
  have hkept0 : ∀ s ∈ (RedisMeterStore.increment window entries now tokens).dq,
      0 ≤ s.ts ∧ s.ts ≤ now := by
    intro s hs
    rcases mem_zinsert.mp (hkeepmem s hs).1 with rfl | hmem
    · exact ⟨hnow, le_refl _⟩
    · exact (hpos s hmem)
  constructor
  · refine ⟨hne, ?_, rfl, ?_, ?_⟩
    · intro s hs
      exact trimOld_ge hpair2 s hs
    · intro s hs
      simp only [InMemoryMeterStore.increment] at hs ⊢
      cases htr : trimOld (now - (window : Int)) (dq ++ [⟨now, tokens⟩]) with
      | nil => exact absurd htr hne
      | cons a rest =>
        rw [htr] at hs
        simp only []
        have hp : (a :: rest).Pairwise (fun a b : Sample => a.ts ≤ b.ts) := by
          rw [← htr]; exact trimOld_pairwise hpair2
        rcases List.mem_cons.mp hs with rfl | hmem
        · exact le_refl _
        · exact (List.pairwise_cons.mp hp).1 s hmem
    · simp only [InMemoryMeterStore.increment]
      cases htr : trimOld (now - (window : Int)) (dq ++ [⟨now, tokens⟩]) with
      | nil => exact absurd htr hne
      | cons a rest =>
        exact ⟨a, List.mem_cons_self a rest, rfl⟩
  · refine ⟨?_, rfl, ?_, ?_, ?_⟩
    · intro s hs
      have h0 := (hkept0 s hs).1
      have hnot := (hkeepmem s hs).2
      omega
    · intro s hs
      simp only [RedisMeterStore.increment] at hs ⊢
      exact foldlMin_le_mem _ now s hs
    · intro hnil
      simp only [RedisMeterStore.increment] at hnil ⊢
      rw [hnil]
      rfl
    · intro hnonnil
      obtain ⟨s0, hs0⟩ := List.exists_mem_of_ne_nil _ hnonnil
      have hbound := foldlMin_le_mem
        ((zinsert ⟨now, tokens⟩ entries).filter
          (fun s => !decide (0 ≤ s.ts ∧ s.ts ≤ now - (window : Int)))) now s0 hs0
      rcases foldlMin_eq_seed_or_mem
        ((zinsert ⟨now, tokens⟩ entries).filter
          (fun s => !decide (0 ≤ s.ts ∧ s.ts ≤ now - (window : Int)))) now with
        heq | ⟨s1, hs1, heq⟩
      · refine ⟨s0, hs0, ?_⟩
        have hsle := (hkept0 s0 hs0).2
        simp only [RedisMeterStore.increment] at hbound ⊢
        omega
      · exact ⟨s1, hs1, heq⟩

/-- C3 witness: the amended theorem instantiated at a concrete window. -/
theorem c3_meter_increment_witness :
    ((InMemoryMeterStore.increment 60 [⟨1, 2⟩, ⟨3, 4⟩] 5 7).dq ≠ [] ∧
      (InMemoryMeterStore.increment 60 [⟨1, 2⟩, ⟨3, 4⟩] 5 7).total =
        (((InMemoryMeterStore.increment 60 [⟨1, 2⟩, ⟨3, 4⟩] 5 7).dq).map Sample.tokens).sum) ∧
    (RedisMeterStore.increment 60 [⟨1, 2⟩, ⟨3, 4⟩] 5 7).total =
      (((RedisMeterStore.increment 60 [⟨1, 2⟩, ⟨3, 4⟩] 5 7).dq).map Sample.tokens).sum := by
  have h := c3_meter_increment_amended 60 5 7 [⟨1, 2⟩, ⟨3, 4⟩] [⟨1, 2⟩, ⟨3, 4⟩]
    (by decide) (by decide) (by decide) (by decide)
  exact ⟨⟨h.1.1, h.1.2.2.1⟩, h.2.2.1⟩

/-!
## Helper lemmas about the ingress phase
-/

/-- Convenience name for the store increment performed by the ingress phase. -/
def ingressInc (cfg : QuotaConfig) (numTokens : String → Nat) (req : IngressReq)
    (st : MeterMap) (now : Int) : IncRes :=
  InMemoryMeterStore.increment cfg.window (st (quotaUser req)) now (reqTokens numTokens req)

/-- Monitoring paths pass through untouched. -/
theorem dispatchIngress_monitoring (cfg : QuotaConfig) (numTokens : String → Nat)
    (freshId : String) (req : IngressReq) (st : MeterMap) (now tRej : Int)
    (hmon : isMonitoringEndpoint req.path = true) :
    TokenQuotaMiddleware.dispatchIngress cfg numTokens freshId req st now tRej =
      ⟨.passthrough, st, []⟩ := by
  simp [TokenQuotaMiddleware.dispatchIngress, hmon]

/-- In the over-limit case the ingress phase rejects, finalises the draft,
and emits it. -/
theorem dispatchIngress_reject (cfg : QuotaConfig) (numTokens : String → Nat)
    (freshId : String) (req : IngressReq) (st : MeterMap) (now tRej : Int)
    (hmon : isMonitoringEndpoint req.path = false)
    (hover : (ingressInc cfg numTokens req st now).total > cfg.maxTokens) :
    TokenQuotaMiddleware.dispatchIngress cfg numTokens freshId req st now tRej =
      ⟨.reject "token quota exceeded"
          (max 0 ((cfg.window : Int) - (tRej - (ingressInc cfg numTokens req st now).oldest))) 429,
        fun u => if u = quotaUser req then (ingressInc cfg numTokens req st now).dq else st u,
        [{ initialDraft numTokens freshId req with ts := some tRej }]⟩ := by
  have hover2 : (InMemoryMeterStore.increment cfg.window (st (quotaUser req)) now
      (reqTokens numTokens req)).total > cfg.maxTokens := hover
  simp only [TokenQuotaMiddleware.dispatchIngress, hmon, Bool.false_eq_true, if_false]
  rw [if_pos hover2]
  rfl

/-- In the within-limit case the ingress phase proceeds with the draft. -/
theorem dispatchIngress_proceed (cfg : QuotaConfig) (numTokens : String → Nat)
    (freshId : String) (req : IngressReq) (st : MeterMap) (now tRej : Int)
    (hmon : isMonitoringEndpoint req.path = false)
    (hover : ¬ (ingressInc cfg numTokens req st now).total > cfg.maxTokens) :
    TokenQuotaMiddleware.dispatchIngress cfg numTokens freshId req st now tRej =
      ⟨.proceed (initialDraft numTokens freshId req),
        fun u => if u = quotaUser req then (ingressInc cfg numTokens req st now).dq else st u,
        []⟩ := by
  have hover2 : ¬ (InMemoryMeterStore.increment cfg.window (st (quotaUser req)) now
      (reqTokens numTokens req)).total > cfg.maxTokens := hover
  simp only [TokenQuotaMiddleware.dispatchIngress, hmon, Bool.false_eq_true, if_false]
  rw [if_neg hover2]
  rfl

/-- The meter window of a non-monitored request ends up incremented under the
attributed user key, no matter which branch is taken. -/
theorem dispatchIngress_store (cfg : QuotaConfig) (numTokens : String → Nat)
    (freshId : String) (req : IngressReq) (st : MeterMap) (now tRej : Int)
    (hmon : isMonitoringEndpoint req.path = false) :
    (TokenQuotaMiddleware.dispatchIngress cfg numTokens freshId req st now tRej).store =
      fun u => if u = quotaUser req then (ingressInc cfg numTokens req st now).dq else st u := by
  by_cases hover : (ingressInc cfg numTokens req st now).total > cfg.maxTokens
  · rw [dispatchIngress_reject cfg numTokens freshId req st now tRej hmon hover]
  · rw [dispatchIngress_proceed cfg numTokens freshId req st now tRej hmon hover]

/-- C2: whenever the window total after the request-body increment strictly
exceeds the limit, the ingress phase finalises the draft (timestamp set),
emits it, and responds 429 with detail string and
`retry_after = max(0, W - (now - oldest))`, a value that always lies in
`[0, W]`. -/
theorem c2_quota_reject (cfg : QuotaConfig) (numTokens : String → Nat)
    (freshId : String) (req : IngressReq) (st : MeterMap) (now tRej : Int)
    (hmon : isMonitoringEndpoint req.path = false)
    (hts : ∀ s ∈ st (quotaUser req), s.ts ≤ now)
    (hnr : now ≤ tRej)
    (hover : (ingressInc cfg numTokens req st now).total > cfg.maxTokens) :
    (TokenQuotaMiddleware.dispatchIngress cfg numTokens freshId req st now tRej).outcome =
      .reject "token quota exceeded"
        (max 0 ((cfg.window : Int) - (tRej - (ingressInc cfg numTokens req st now).oldest))) 429 ∧
    (TokenQuotaMiddleware.dispatchIngress cfg numTokens freshId req st now tRej).emitted =
      [{ initialDraft numTokens freshId req with ts := some tRej }] ∧
    0 ≤ max 0 ((cfg.window : Int) - (tRej - (ingressInc cfg numTokens req st now).oldest)) ∧
    max 0 ((cfg.window : Int) - (tRej - (ingressInc cfg numTokens req st now).oldest)) ≤
      (cfg.window : Int) := by
  have heq := dispatchIngress_reject cfg numTokens freshId req st now tRej hmon hover
  have hold : (ingressInc cfg numTokens req st now).oldest ≤ now :=
    increment_oldest_le hts
  refine ⟨by rw [heq], by rw [heq], le_max_left _ _, ?_⟩
  have h1 : (cfg.window : Int) - (tRej - (ingressInc cfg numTokens req st now).oldest) ≤
      (cfg.window : Int) := by omega
  exact max_le (by positivity) h1

/-- C2 witness: concrete rejection with `retry_after = 60 ∈ [0, 60]`. -/
theorem c2_quota_reject_witness :
    (TokenQuotaMiddleware.dispatchIngress ⟨60, 3⟩ String.length "rid"
        ⟨"/api/chat", some "alice", none, none, "application/json", "hello", none, none⟩
        (fun _ => []) 0 0).outcome =
      .reject "token quota exceeded" 60 429 ∧
    (TokenQuotaMiddleware.dispatchIngress ⟨60, 3⟩ String.length "rid"
        ⟨"/api/chat", some "alice", none, none, "application/json", "hello", none, none⟩
        (fun _ => []) 0 0).emitted =
      [⟨"alice", "default", 5, 0, "unknown", "rid", some 0⟩] := by
  have h := c2_quota_reject ⟨60, 3⟩ String.length "rid"
    ⟨"/api/chat", some "alice", none, none, "application/json", "hello", none, none⟩
    (fun _ => []) 0 0 (by decide)
    (fun s hs => absurd hs (List.not_mem_nil s)) (by decide) (by decide)
  exact ⟨h.1.trans (by decide), h.2.1.trans (by decide)⟩

/-- C8 (corrected claim, counterexample): the JSON metrics route is
`GET /v1/metrics` (api/metrics.py), but the skip list of
`_is_monitoring_endpoint` matches the prefix `/metrics`, which `/v1/metrics`
does not start with; a request to `/v1/metrics` is therefore metered (its
meter window is incremented) instead of passing through unmetered. -/
theorem c8_counterexample :
    isMonitoringEndpoint "/v1/metrics" = false ∧
    (TokenQuotaMiddleware.dispatchIngress ⟨60, 60000⟩ String.length "rid"
        ⟨"/v1/metrics", some "alice", none, none, "application/json", "hi", none, none⟩
        (fun _ => []) 0 0).store "alice" = [⟨0, 2⟩] ∧
    (TokenQuotaMiddleware.dispatchIngress ⟨60, 60000⟩ String.length "rid"
        ⟨"/v1/metrics", some "alice", none, none, "application/json", "hi", none, none⟩
        (fun _ => []) 0 0).outcome ≠ .passthrough := by
  exact ⟨by decide, by decide, by decide⟩

/-- C8 (amended): the quota middleware skips metering exactly for the paths
starting with `/metrics`, `/mem/events` or `/auth/config` (passing the
request through with the store untouched and nothing emitted); every other
path, including the JSON metrics route `/v1/metrics`, is metered. -/
theorem c8_monitoring_skip_amended :
    (∀ (cfg : QuotaConfig) (numTokens : String → Nat) (freshId : String)
        (req : IngressReq) (st : MeterMap) (now tRej : Int),
      isMonitoringEndpoint req.path = true →
      TokenQuotaMiddleware.dispatchIngress cfg numTokens freshId req st now tRej =
        ⟨.passthrough, st, []⟩) ∧
    (∀ (cfg : QuotaConfig) (numTokens : String → Nat) (freshId : String)
        (req : IngressReq) (st : MeterMap) (now tRej : Int),
      isMonitoringEndpoint req.path = false →
      (TokenQuotaMiddleware.dispatchIngress cfg numTokens freshId req st now tRej).store
        (quotaUser req) = (ingressInc cfg numTokens req st now).dq) ∧
    isMonitoringEndpoint "/metrics" = true ∧
    isMonitoringEndpoint "/mem/events" = true ∧
    isMonitoringEndpoint "/auth/config" = true ∧
    isMonitoringEndpoint "/v1/metrics" = false := by
  refine ⟨?_, ?_, by decide, by decide, by decide, by decide⟩
  · intro cfg numTokens freshId req st now tRej hmon
    exact dispatchIngress_monitoring cfg numTokens freshId req st now tRej hmon
  · intro cfg numTokens freshId req st now tRej hmon
    rw [dispatchIngress_store cfg numTokens freshId req st now tRej hmon]
    simp

/-- C8 witness: the amended theorem instantiated at the `/metrics` prefix. -/
theorem c8_monitoring_skip_witness :
    TokenQuotaMiddleware.dispatchIngress ⟨60, 60000⟩ String.length "rid"
        ⟨"/metrics", some "alice", none, none, "application/json", "hi", none, none⟩
        (fun _ => []) 0 0 =
      ⟨.passthrough, (fun _ => []), []⟩ :=
  c8_monitoring_skip_amended.1 _ _ _ _ _ _ _ (by decide)

/-- C9: quota attribution is a function of the `X-Attach-User` header and the
client address only; the authenticated subject (`sub`) plays no role.  Two
requests with equal header and client address hit the same per-user window,
whatever their subjects; a request only ever updates the window of its own
attributed user, and (when metered) that window receives the increment. -/
theorem c9_user_attribution :
    (∀ r1 r2 : IngressReq, r1.xAttachUser = r2.xAttachUser →
      r1.clientHost = r2.clientHost → quotaUser r1 = quotaUser r2) ∧
    (∀ (cfg : QuotaConfig) (numTokens : String → Nat) (freshId : String)
        (req : IngressReq) (st : MeterMap) (now tRej : Int) (u : String),
      ¬ u = quotaUser req →
      (TokenQuotaMiddleware.dispatchIngress cfg numTokens freshId req st now tRej).store u =
        st u) ∧
    (∀ (cfg : QuotaConfig) (numTokens : String → Nat) (freshId : String)
        (req : IngressReq) (st : MeterMap) (now tRej : Int),
      isMonitoringEndpoint req.path = false →
      (TokenQuotaMiddleware.dispatchIngress cfg numTokens freshId req st now tRej).store
        (quotaUser req) = (ingressInc cfg numTokens req st now).dq) := by
  refine ⟨?_, ?_, ?_⟩
  · intro r1 r2 h1 h2
    simp only [quotaUser, h1, h2]
  · intro cfg numTokens freshId req st now tRej u hu
    by_cases hmon : isMonitoringEndpoint req.path = true
    · rw [dispatchIngress_monitoring cfg numTokens freshId req st now tRej hmon]
    · have hm2 : isMonitoringEndpoint req.path = false := by
        revert hmon; cases isMonitoringEndpoint req.path <;> simp
      rw [dispatchIngress_store cfg numTokens freshId req st now tRej hm2]
      simp [hu]
  · intro cfg numTokens freshId req st now tRej hmon
    rw [dispatchIngress_store cfg numTokens freshId req st now tRej hmon]
    simp

/-- C9 witness: two requests differing only in their authenticated subject
share the attributed meter user. -/
theorem c9_user_attribution_witness :
    quotaUser ⟨"/api/chat", some "alice", none, none, "application/json", "b",
        some "10.0.0.1", some "subjectA"⟩ =
      quotaUser ⟨"/api/chat", some "alice", none, none, "application/json", "b",
        some "10.0.0.1", some "subjectB"⟩ :=
  c9_user_attribution.1 _ _ rfl rfl

/-- C5: a cache hit on the fingerprint short-circuits `proxy_to_engine`: the
cached value is returned verbatim with zero upstream calls, zero enqueues and
zero cache writes, for every configured queue backend. -/
theorem c5_cache_hit (h : String → String) (cacheGet : String → Option JScalar)
    (cfg : AppConfig) (freshJobId : String) (upstreamResp : JScalar)
    (body : ChatBody) (v : JScalar)
    (hhit : cacheGet (cache_key h body.model body.messagesSer body.params) = some v) :
    proxy_to_engine h cacheGet cfg freshJobId upstreamResp (some body) =
      ⟨.cachedHit v, 0, [], []⟩ := by
  simp [proxy_to_engine, hhit]

/-- C5 witness: a concrete hit under the shared queue backend makes no
upstream call and enqueues nothing. -/
theorem c5_cache_hit_witness :
    proxy_to_engine id
      (fun k => if k = cache_key id "m" "[]" [] then some (JScalar.str "ok") else none)
      ⟨"redis"⟩ "job1" JScalar.null (some ⟨"m", "[]", [], true⟩) =
      ⟨.cachedHit (JScalar.str "ok"), 0, [], []⟩ :=
  c5_cache_hit id _ ⟨"redis"⟩ "job1" JScalar.null ⟨"m", "[]", [], true⟩ _ (by simp)

/-- C6: the kid resolution of `_verify_jwt_direct` forces at most one JWKS
refresh; a kid present in the current snapshot is served with zero forced
refreshes, a missing kid triggers exactly one refresh and a retry, and only a
kid absent from the refreshed snapshot too fails with the
`signing key not found` ValueError. -/
theorem c6_kid_refresh (keys1 keys2 : List Jwk) (kid : String) :
    (resolveSigningKey keys1 keys2 kid).2 ≤ 1 ∧
    (∀ j, findKey keys1 kid = some j →
      resolveSigningKey keys1 keys2 kid = (some j, 0)) ∧
    (findKey keys1 kid = none → (resolveSigningKey keys1 keys2 kid).2 = 1) ∧
    (∀ j, findKey keys1 kid = none → findKey keys2 kid = some j →
      resolveSigningKey keys1 keys2 kid = (some j, 1)) ∧
    (findKey keys1 kid = none → findKey keys2 kid = none →
      resolveSigningKey keys1 keys2 kid = (none, 1)) ∧
    (∀ (issuer : String) (tok : TokenModel), tok.wellFormed = true →
      ACCEPTED_ALGS.contains tok.alg = true → tok.kid = some kid → ¬ kid = "" →
      findKey keys1 kid = none → findKey keys2 kid = none →
      verifyJwtCore issuer keys1 keys2 tok =
        .error ⟨true, "signing key not found in issuer JWKS"⟩) := by
  refine ⟨?_, ?_, ?_, ?_, ?_, ?_⟩
  · cases h1 : findKey keys1 kid with
    | some j => simp [resolveSigningKey, h1]
    | none =>
      cases h2 : findKey keys2 kid with
      | some j => simp [resolveSigningKey, h1, h2]
      | none => simp [resolveSigningKey, h1, h2]
  · intro j h1
    simp [resolveSigningKey, h1]
  · intro h1
    cases h2 : findKey keys2 kid with
    | some j => simp [resolveSigningKey, h1, h2]
    | none => simp [resolveSigningKey, h1, h2]
  · intro j h1 h2
    simp [resolveSigningKey, h1, h2]
  · intro h1 h2
    simp [resolveSigningKey, h1, h2]
  · intro issuer tok hwf halg hkid hne h1 h2
    have halg2 : tok.alg ∈ ACCEPTED_ALGS := by simpa using halg
    simp [verifyJwtCore, hwf, halg2, hkid, hne, resolveSigningKey, h1, h2]

/-- C6 witness: a rotated-in kid is found after exactly one forced refresh. -/
theorem c6_kid_refresh_witness :
    resolveSigningKey [⟨"k1"⟩] [⟨"k1"⟩, ⟨"k2"⟩] "k2" = (some ⟨"k2"⟩, 1) :=
  (c6_kid_refresh [⟨"k1"⟩] [⟨"k1"⟩, ⟨"k2"⟩] "k2").2.2.2.1 ⟨"k2"⟩ (by decide) (by decide)

/-- C10: a bearer token that verifies but carries no `sub` claim makes the
auth middleware raise an uncaught `KeyError` (the subscript sits outside the
`try`), so no 401 response is produced. -/
theorem c10_missing_sub_keyerror
    (verify : String → Except PyErr (List (String × String)))
    (req : AuthReq) (claims : List (String × String))
    (hm : ¬ req.method = "OPTIONS")
    (hp : ¬ EXCLUDED_PATHS.contains req.path = true)
    (ha : strStartsWith (req.authorization.getD "") "Bearer " = true)
    (hv : verify ((req.authorization.getD "").drop 7) = .ok claims)
    (hs : lookupClaim claims "sub" = none) :
    jwt_auth_mw verify req = .uncaughtKeyError "sub" ∧
      ∀ (st : Nat) (d : String), ¬ jwt_auth_mw verify req = .response st d := by
  have hp2 : req.path ∉ EXCLUDED_PATHS := by simpa using hp
  have hmain : jwt_auth_mw verify req = .uncaughtKeyError "sub" := by
    simp [jwt_auth_mw, hm, hp2, ha, hv, hs]
  refine ⟨hmain, ?_⟩
  intro st d hcontra
  rw [hmain] at hcontra
  simp at hcontra

/-- C10 witness: a concrete verified token without `sub` escapes as a
`KeyError` instead of a 401. -/
theorem c10_missing_sub_keyerror_witness :
    jwt_auth_mw (fun _ => .ok [("iss", "x")]) ⟨"POST", "/api/chat", some "Bearer tok"⟩ =
      .uncaughtKeyError "sub" :=
  (c10_missing_sub_keyerror _ _ [("iss", "x")]
    (by decide) (by decide) (by decide) rfl (by decide)).1

/-!
## Egress loop lemmas
-/

/-- Store update performed for one chunk of the egress loop. -/
def loopStep (cfg : QuotaConfig) (numTokens : String → Nat) (textual : Bool)
    (d : List Sample) (p : Int × String) : List Sample :=
  (InMemoryMeterStore.increment cfg.window d p.1 (chunkTokens numTokens textual p.2)).dq

/-- Master invariant of the egress chunk loop: the consumed prefix plus the
untouched remainder reconstructs the input; `tokens_out` sums exactly the
forwarded chunks while `counted` sums every chunk that reached the store; the
store state is the fold of the increments over the consumed chunks only; a
non-stopped run consumes and forwards everything; a stopped run consumed one
final over-limit chunk that was metered but not forwarded. -/
theorem streamLoop_spec (cfg : QuotaConfig) (numTokens : String → Nat)
    (textual : Bool) :
    ∀ (chunks : List (Int × String)) (dq : List Sample),
      (streamLoop cfg numTokens textual chunks dq).consumed ++
        (streamLoop cfg numTokens textual chunks dq).remaining = chunks ∧
      (streamLoop cfg numTokens textual chunks dq).tokensOut =
        (((streamLoop cfg numTokens textual chunks dq).yielded).map
          (chunkTokens numTokens textual)).sum ∧
      (streamLoop cfg numTokens textual chunks dq).counted =
        (((streamLoop cfg numTokens textual chunks dq).consumed).map
          (fun p => chunkTokens numTokens textual p.2)).sum ∧
      (streamLoop cfg numTokens textual chunks dq).dq =
        ((streamLoop cfg numTokens textual chunks dq).consumed).foldl
          (loopStep cfg numTokens textual) dq ∧
      ((streamLoop cfg numTokens textual chunks dq).stopped = false →
        (streamLoop cfg numTokens textual chunks dq).remaining = [] ∧
        (streamLoop cfg numTokens textual chunks dq).yielded =
          ((streamLoop cfg numTokens textual chunks dq).consumed).map Prod.snd) ∧
      ((streamLoop cfg numTokens textual chunks dq).stopped = true →
        ∃ pre t c,
          (streamLoop cfg numTokens textual chunks dq).consumed = pre ++ [(t, c)] ∧
          (streamLoop cfg numTokens textual chunks dq).yielded = pre.map Prod.snd ∧
          (InMemoryMeterStore.increment cfg.window
            (pre.foldl (loopStep cfg numTokens textual) dq) t
            (chunkTokens numTokens textual c)).total > cfg.maxTokens) := by
  intro chunks
  induction chunks with
  | nil =>
    intro dq
    simp [streamLoop]
  | cons hd rest ih =>
    intro dq
    obtain ⟨t, c⟩ := hd
    by_cases hover : (InMemoryMeterStore.increment cfg.window dq t
        (chunkTokens numTokens textual c)).total > cfg.maxTokens
    · simp only [streamLoop, if_pos hover]
      refine ⟨rfl, by simp, by simp, by simp [loopStep], by simp, ?_⟩
      intro _
      exact ⟨[], t, c, by simp, by simp, by simpa using hover⟩
    · have ihr := ih (InMemoryMeterStore.increment cfg.window dq t
        (chunkTokens numTokens textual c)).dq
      obtain ⟨ih1, ih2, ih3, ih4, ih5, ih6⟩ := ihr
      simp only [streamLoop, if_neg hover]
      refine ⟨?_, ?_, ?_, ?_, ?_, ?_⟩
      · simp [ih1]
      · simp [ih2]
      · simp [ih3]
      · simp [List.foldl_cons, loopStep, ih4]
      · intro hstop
        exact ⟨(ih5 hstop).1, by simp [(ih5 hstop).2]⟩
      · intro hstop
        obtain ⟨pre, t2, c2, hcons, hyield, hov⟩ := ih6 hstop
        refine ⟨(t, c) :: pre, t2, c2, by simp [hcons], by simp [hyield], ?_⟩
        simpa [loopStep, List.foldl_cons] using hov

/-- C4 (corrected claim, counterexample): with limit 10 and byte counting,
streaming chunks of 5, 8 and 3 tokens, the second chunk overflows.  Its 8
tokens reach the store (`counted = 13`, both samples present in the window)
but the emitted draft only carries `tokens_out = 5`, so the counted tokens of
the truncating chunk are not added to `tokens_out`; and the third chunk is
never counted or incremented at all (it stays in `remaining`), contrary to
the claim that every chunk after the first is counted and incremented. -/
theorem c4_counterexample :
    (streamLoop ⟨60, 10⟩ String.length true
      [(0, "abcde"), (1, "abcdefgh"), (2, "xyz")] []).counted = 13 ∧
    (streamLoop ⟨60, 10⟩ String.length true
      [(0, "abcde"), (1, "abcdefgh"), (2, "xyz")] []).dq = [⟨0, 5⟩, ⟨1, 8⟩] ∧
    (streamLoop ⟨60, 10⟩ String.length true
      [(0, "abcde"), (1, "abcdefgh"), (2, "xyz")] []).tokensOut = 5 ∧
    (streamLoop ⟨60, 10⟩ String.length true
      [(0, "abcde"), (1, "abcdefgh"), (2, "xyz")] []).tokensOut ≠
      (streamLoop ⟨60, 10⟩ String.length true
        [(0, "abcde"), (1, "abcdefgh"), (2, "xyz")] []).counted ∧
    (streamLoop ⟨60, 10⟩ String.length true
      [(0, "abcde"), (1, "abcdefgh"), (2, "xyz")] []).remaining = [(2, "xyz")] := by
  refine ⟨rfl, rfl, rfl, by decide, rfl⟩

/-- C4 (amended): during response streaming, chunks after the first are
processed in order; each chunk the loop reaches is counted and its count
incremented in the store; the first chunk whose increment pushes the window
total over the limit is not forwarded and ends the loop, leaving all later
chunks unread (neither counted nor incremented); `tokens_out` accumulates
exactly the counted tokens of the forwarded chunks (the over-limit chunk is
metered in the store but excluded from the draft); and on stream end the
draft is finalised and emitted to the usage sink exactly once. -/
theorem c4_stream_quota_amended (cfg : QuotaConfig) (numTokens : String → Nat)
    (textual : Bool) (firstChunk : Option String) (chunks : List (Int × String))
    (dq : List Sample) (draft : UsageDraft) (tEnd : Int) :
    (stream_with_quota cfg numTokens textual firstChunk chunks dq draft tEnd).emitted =
      [{ draft with
          tokens_out := draft.tokens_out + (streamLoop cfg numTokens textual chunks dq).tokensOut,
          ts := some tEnd }] ∧
    (stream_with_quota cfg numTokens textual firstChunk chunks dq draft tEnd).yielded =
      firstChunk.toList ++ (streamLoop cfg numTokens textual chunks dq).yielded ∧
    (streamLoop cfg numTokens textual chunks dq).consumed ++
      (streamLoop cfg numTokens textual chunks dq).remaining = chunks ∧
    (streamLoop cfg numTokens textual chunks dq).tokensOut =
      (((streamLoop cfg numTokens textual chunks dq).yielded).map
        (chunkTokens numTokens textual)).sum ∧
    (streamLoop cfg numTokens textual chunks dq).counted =
      (((streamLoop cfg numTokens textual chunks dq).consumed).map
        (fun p => chunkTokens numTokens textual p.2)).sum ∧
    (streamLoop cfg numTokens textual chunks dq).dq =
      ((streamLoop cfg numTokens textual chunks dq).consumed).foldl
        (loopStep cfg numTokens textual) dq ∧
    ((streamLoop cfg numTokens textual chunks dq).stopped = false →
      (streamLoop cfg numTokens textual chunks dq).remaining = [] ∧
      (streamLoop cfg numTokens textual chunks dq).yielded =
        ((streamLoop cfg numTokens textual chunks dq).consumed).map Prod.snd) ∧
    ((streamLoop cfg numTokens textual chunks dq).stopped = true →
      ∃ pre t c,
        (streamLoop cfg numTokens textual chunks dq).consumed = pre ++ [(t, c)] ∧
        (streamLoop cfg numTokens textual chunks dq).yielded = pre.map Prod.snd ∧
        (InMemoryMeterStore.increment cfg.window
          (pre.foldl (loopStep cfg numTokens textual) dq) t
          (chunkTokens numTokens textual c)).total > cfg.maxTokens) := by
  obtain ⟨h1, h2, h3, h4, h5, h6⟩ := streamLoop_spec cfg numTokens textual chunks dq
  exact ⟨rfl, rfl, h1, h2, h3, h4, h5, h6⟩

/-- C4 witness: the amended theorem at two concrete runs, one truncated and
one complete (the latter discharging the non-stopped implication). -/
theorem c4_stream_quota_witness :
    (stream_with_quota ⟨60, 10⟩ String.length true (some "hi")
        [(0, "abcde"), (1, "abcdefgh"), (2, "xyz")] []
        ⟨"u", "p", 3, 2, "m", "r", none⟩ 5).emitted =
      [⟨"u", "p", 3, 7, "m", "r", some 5⟩] ∧
    (streamLoop ⟨60, 10⟩ String.length true [(0, "ab")] []).remaining = [] := by
  have h1 := c4_stream_quota_amended ⟨60, 10⟩ String.length true (some "hi")
    [(0, "abcde"), (1, "abcdefgh"), (2, "xyz")] [] ⟨"u", "p", 3, 2, "m", "r", none⟩ 5
  have h2 := c4_stream_quota_amended ⟨60, 10⟩ String.length true none
    [(0, "ab")] [] ⟨"u", "p", 0, 0, "m", "r", none⟩ 0
  exact ⟨h1.1.trans (by decide), (h2.2.2.2.2.2.2.1 (by decide)).1⟩

/-!
## Fingerprint lemmas
-/

/-- Pointwise conjunction of two pairwise relations. -/
theorem pairwise_and {α : Type} {R S : α → α → Prop} :
    ∀ {l : List α}, l.Pairwise R → l.Pairwise S →
      l.Pairwise (fun a b => R a b ∧ S a b) := by
  intro l
  induction l with
  | nil => intro _ _; exact List.Pairwise.nil
  | cons a rest ih =>
    intro hr hs
    rw [List.pairwise_cons] at hr hs ⊢
    exact ⟨fun b hb => ⟨hr.1 b hb, hs.1 b hb⟩, ih hr.2 hs.2⟩

/-- Strict key ordering on parameter entries. -/
def keyLT (a b : String × JScalar) : Prop := a.1 < b.1

instance : IsAntisymm (String × JScalar) keyLT :=
  ⟨fun _ _ h1 h2 => absurd h2 (lt_asymm h1)⟩

/-- A key-sorted entry list with pairwise-distinct keys is strictly sorted. -/
theorem sorted_keyLT_of_nodup {l : List (String × JScalar)}
    (hs : l.Pairwise keyLE) (hn : (l.map Prod.fst).Nodup) : l.Pairwise keyLT := by
  have hne : l.Pairwise (fun a b => a.1 ≠ b.1) := List.pairwise_map.mp hn
  exact (pairwise_and hs hne).imp (fun h => lt_of_le_of_ne h.1 h.2)

/-- Key-sorting two permuted parameter maps with duplicate-free keys yields
the same entry list. -/
theorem sortParams_eq_of_perm {p1 p2 : List (String × JScalar)}
    (hp : p1.Perm p2) (hn : (p1.map Prod.fst).Nodup) :
    sortParams p1 = sortParams p2 := by
  have h1 : (sortParams p1).Perm p1 := List.perm_insertionSort keyLE p1
  have h2 : (sortParams p2).Perm p2 := List.perm_insertionSort keyLE p2
  have h12 : (sortParams p1).Perm (sortParams p2) := h1.trans (hp.trans h2.symm)
  have hs1 : (sortParams p1).Pairwise keyLE := List.sorted_insertionSort keyLE p1
  have hs2 : (sortParams p2).Pairwise keyLE := List.sorted_insertionSort keyLE p2
  have hn1 : ((sortParams p1).map Prod.fst).Nodup := ((h1.map Prod.fst).nodup_iff).mpr hn
  have hn2 : ((sortParams p2).map Prod.fst).Nodup := by
    have hnp2 : (p2.map Prod.fst).Nodup := ((hp.map Prod.fst).nodup_iff).mp hn
    exact ((h2.map Prod.fst).nodup_iff).mpr hnp2
  exact List.eq_of_perm_of_sorted h12
    (sorted_keyLT_of_nodup hs1 hn1) (sorted_keyLT_of_nodup hs2 hn2)

/-- C7 (corrected claim, counterexample): distinct inputs do not collide only
with cryptographic probability — the three hashed parts are concatenated
without separators, so `model = "a", messages = "12"` and
`model = "a1", messages = "2"` build the exact same hashed string, hence the
same SHA-256 key with probability 1, although the models differ. -/
theorem c7_counterexample :
    cacheBlob "a" "12" [] = cacheBlob "a1" "2" [] ∧
    ¬ ("a", "12") = (("a1", "2") : String × String) := by
  exact ⟨rfl, by decide⟩

/-- C7 (amended): the fingerprint is deterministic and invariant under
reordering of the `params` mapping — equal model, byte-identical serialised
messages and permuted duplicate-free params give the same key for any digest
function; but unequal inputs can collide deterministically across the
unseparated model/messages boundary. -/
theorem c7_fingerprint_amended (h : String → String) (model messages : String)
    (p1 p2 : List (String × JScalar)) (hp : p1.Perm p2)
    (hn : (p1.map Prod.fst).Nodup) :
    cache_key h model messages p1 = cache_key h model messages p2 := by
  unfold cache_key cacheBlob dumpsParams
  rw [sortParams_eq_of_perm hp hn]

/-- C7 witness: a concrete two-entry params map reordered. -/
theorem c7_fingerprint_witness :
    cache_key id "m" "[]" [("t", JScalar.num 0), ("a", JScalar.str "x")] =
      cache_key id "m" "[]" [("a", JScalar.str "x"), ("t", JScalar.num 0)] :=
  c7_fingerprint_amended id "m" "[]" _ _ (by decide) (by decide)

/-- C1 (corrected claim, counterexample): an issuer-mismatch failure (the
`IssuerUnknown` cause) is raised by `jose.jwt.decode` as a `JWTClaimsError`,
which is not a `ValueError`; `verify_jwt_with_exchange` therefore re-raises
it through its final `except` without attempting the exchange, contradicting
the claim that both transient causes lead to an exchange attempt. -/
theorem c1_counterexample :
    verifyJwtDirect "https://good.example" [⟨"k1"⟩] [⟨"k1"⟩]
      ⟨true, "RS256", some "k1", some "https://evil.example",
        true, true, true, true, [("sub", "u")]⟩ =
      .error ⟨false, "Invalid issuer"⟩ ∧
    (verifyJwtWithExchange "https://good.example" [⟨"k1"⟩] [⟨"k1"⟩]
      ⟨.error ⟨true, "exchange unavailable"⟩, "https://api.descope.example", [], []⟩
      ⟨true, "RS256", some "k1", some "https://evil.example",
        true, true, true, true, [("sub", "u")]⟩).exchangeAttempted = false := by
  exact ⟨rfl, rfl⟩

/-- C1 (amended): the exchange path is gated on the Python exception type and
message, not on the transient/permanent taxonomy: the exchange is attempted
exactly when direct verification raises a `ValueError` whose message contains
none of the permanent phrases and the token carries a non-empty unverified
`iss` claim.  In particular `KidUnknown` (with extractable issuer) is
exchanged, while `AlgNotAllowed`, `KidMissing`, `Malformed`, `Expired` and
also `IssuerUnknown` (a jose error, not a `ValueError`) short-circuit. -/
theorem c1_exchange_gating_amended (issuer : String) (keys1 keys2 : List Jwk)
    (w : ExchangeWorld) (tok : TokenModel) :
    (∀ c, verifyJwtDirect issuer keys1 keys2 tok = .ok c →
      verifyJwtWithExchange issuer keys1 keys2 w tok = ⟨.ok c, false⟩) ∧
    (∀ e, verifyJwtDirect issuer keys1 keys2 tok = .error e → e.isValueError = false →
      verifyJwtWithExchange issuer keys1 keys2 w tok = ⟨.error e, false⟩) ∧
    (∀ e, verifyJwtDirect issuer keys1 keys2 tok = .error e → e.isValueError = true →
      PERMANENT_PHRASES.any (fun p => strContains e.msg p) = true →
      verifyJwtWithExchange issuer keys1 keys2 w tok = ⟨.error e, false⟩) ∧
    (∀ e, verifyJwtDirect issuer keys1 keys2 tok = .error e → e.isValueError = true →
      PERMANENT_PHRASES.any (fun p => strContains e.msg p) = false →
      ((verifyJwtWithExchange issuer keys1 keys2 w tok).exchangeAttempted = true ↔
        ¬ tok.iss.getD "" = "")) := by
  refine ⟨?_, ?_, ?_, ?_⟩
  · intro c hok
    simp [verifyJwtWithExchange, hok]
  · intro e herr hval
    simp [verifyJwtWithExchange, herr, hval]
  · intro e herr hval hph
    simp [verifyJwtWithExchange, herr, hval, hph]
  · intro e herr hval hph
    simp only [verifyJwtWithExchange, herr, hval, hph, Bool.false_eq_true, if_false, if_true]
    cases hiss : tok.iss with
    | none => simp
    | some s =>
      by_cases hs : s = ""
      · simp [hs]
      · cases hex : w.exchangeResult with
        | error ex => simp [hs]
        | ok dtok =>
          cases hc : verifyJwtCore w.descopeIssuer w.descopeKeys1 w.descopeKeys2 dtok with
          | ok c2 => simp [hs, hc]
          | error e2 => simp [hs, hc]

/-- C1 witness: a kid-unknown `ValueError` with an extractable external
issuer does reach the exchange call. -/
theorem c1_exchange_gating_witness :
    (verifyJwtWithExchange "https://good.example" [] []
      ⟨.error ⟨true, "exchange unavailable"⟩, "https://api.descope.example", [], []⟩
      ⟨true, "RS256", some "kX", some "https://ext.example",
        true, true, true, true, []⟩).exchangeAttempted = true := by
  have h := (c1_exchange_gating_amended "https://good.example" [] []
    ⟨.error ⟨true, "exchange unavailable"⟩, "https://api.descope.example", [], []⟩
    ⟨true, "RS256", some "kX", some "https://ext.example",
      true, true, true, true, []⟩).2.2.2
    ⟨true, "signing key not found in issuer JWKS"⟩ rfl rfl (by decide)
  exact h.mpr (by decide)
